import Mathlib

/-!
Shallow embedding of the two notebooks of this repository:

* the GAN practical (1D toy GAN, MNIST multilayer-perceptron GAN, DCGAN,
  latent-space interpolation, PatchCamelyon loader), and
* the MNIST LeNet practical (MNIST loader with padding, one-hot encoding,
  LeNet training cells).

Floating-point values are embedded as real numbers.  Keras `train_on_batch`
performs an Adam/SGD parameter update whose arithmetic lives inside the
framework; the *update maps* are therefore universally quantified parameters
(`UpdateRules`, `MnistEnv`), while everything the notebook code itself
determines — data flow, batch construction, label assignment, loss formulas,
loop structure, loss-history bookkeeping, RNG threading — is embedded
concretely from the source.
-/

namespace GanPractical

/-- A batch of scalar samples (1D GAN) or one flat tensor row.  The notebooks
compute with floating point; we embed values as real numbers. -/
abbrev Vec := List ℝ

/-! ### Constants fixed by the notebook cells -/

/-- Source: `real_mean = 8` (1D GAN data cell). -/
def realMean : ℝ := 8

/-- Source: `n_samples = 100` (1D GAN training loop). -/
def nSamples : ℕ := 100

/-- Source: `epochs = 10000` (1D GAN training loop). -/
def epochs1D : ℕ := 10000

/-- Source: `batch_size = 128` (MNIST MLP GAN training loop). -/
def batchSizeM : ℕ := 128

/-- Source: `epochs = 200` (MNIST MLP GAN training loop). -/
def epochsM : ℕ := 200

/-- Source: `latent_dim = 10` (MNIST section of the GAN notebook). -/
def latentDimM : ℕ := 10

/-! ### Keras layers used by the notebooks -/

/-- Dot product of a weight row with an input vector. -/
noncomputable def dot (w x : Vec) : ℝ := (List.zipWith (fun a b => a * b) w x).sum

/-- Parameters of one `Dense` (fully connected) layer: weight rows and biases. -/
structure DenseParams where
  W : List Vec
  b : Vec

/-- Source: `Dense` layer forward pass: one output per (weight row, bias) pair. -/
noncomputable def denseFwd (p : DenseParams) (x : Vec) : Vec :=
  List.zipWith (fun w bi => dot w x + bi) p.W p.b

/-- Source: `LeakyReLU` activation with slope `a` (`LeakyReLU()` in the 1D networks,
Keras default `alpha = 0.3`; `LeakyReLU(0.2)` in the MNIST networks). -/
noncomputable def leakyReLU (a x : ℝ) : ℝ := if x < 0 then a * x else x

/-- The `'sigmoid'` output activation of every discriminator. -/
noncomputable def sigmoid (x : ℝ) : ℝ := 1 / (1 + Real.exp (-x))

/-! ### Binary cross-entropy, the `'binary_crossentropy'` loss -/

/-- Keras backend epsilon (`1e-7`): predicted probabilities are clipped away
from `0` and `1` before the cross-entropy logarithms are taken. -/
noncomputable def kerasEpsilon : ℝ := 1 / 10 ^ 7

/-- Clip a prediction to `[ε, 1 - ε]` as the Keras backend does. -/
noncomputable def clip01 (p : ℝ) : ℝ := max kerasEpsilon (min p (1 - kerasEpsilon))

/-- Pointwise binary cross-entropy of target `y` against prediction `p`. -/
noncomputable def bce (y p : ℝ) : ℝ :=
  -(y * Real.log p + (1 - y) * Real.log (1 - p))

/-- Batch `'binary_crossentropy'` loss: mean over the batch of the pointwise
cross-entropy, predictions clipped by the backend epsilon. -/
noncomputable def meanBCE (ys ps : Vec) : ℝ :=
  (List.zipWith (fun y p => bce y (clip01 p)) ys ps).sum / ys.length

/-! ### The 1D networks (`get_discriminator_1D`, `get_generator_1D`) -/

/-- Source: `get_discriminator_1D`: `Dense(32, input_dim=1)`, `LeakyReLU()`,
`Dense(1, activation='sigmoid')`. -/
structure Disc1D where
  l1 : DenseParams
  l2 : DenseParams

/-- Forward pass of the 1D discriminator on one scalar sample; the final
`Dense(1)` output goes through the sigmoid. -/
noncomputable def disc1DForward (p : Disc1D) (x : ℝ) : ℝ :=
  sigmoid ((denseFwd p.l2 ((denseFwd p.l1 [x]).map (leakyReLU 0.3))).headI)

/-- Source: `get_generator_1D`: `Dense(32, input_dim=1)`, `LeakyReLU()`, `Dense(1)`
(linear output). -/
structure Gen1D where
  l1 : DenseParams
  l2 : DenseParams

/-- Forward pass of the 1D generator on one scalar noise sample. -/
noncomputable def gen1DForward (p : Gen1D) (z : ℝ) : ℝ :=
  (denseFwd p.l2 ((denseFwd p.l1 [z]).map (leakyReLU 0.3))).headI

/-- The composed `gan` model of the 1D section: `D_G_z = discriminator(G_z)`
with `G_z = generator(z)` (cells building `keras.models.Model(inputs=z,
outputs=D_G_z)`). -/
noncomputable def gan1DForward (g : Gen1D) (d : Disc1D) (z : ℝ) : ℝ :=
  disc1DForward d (gen1DForward g z)

/-! ### Random number generation

The program calls `random.seed(0)` once (import cell), which seeds the state
of Python's `random` module.  Every draw in the training loops instead uses
`np.random.*`, i.e. numpy's global `RandomState`, which the program never
seeds; its initial state comes from OS entropy and is modelled here as an
arbitrary `Rng` value.  An `Rng` carries the underlying source streams (a
standard-normal stream `nrm` for `np.random.normal` and a non-negative integer
stream `uni` for `np.random.randint`) together with the current position. -/

structure Rng where
  nrm : ℕ → ℝ
  uni : ℕ → ℕ
  pos : ℕ

/-- Source: `np.random.normal(0, 1, size=[n, 1])` (flattened): consume `n` values from
the standard-normal stream. -/
def draw : Rng → ℕ → Vec × Rng
  | r, 0 => ([], r)
  | r, n + 1 =>
      let rest := draw { r with pos := r.pos + 1 } n
      (r.nrm r.pos :: rest.1, rest.2)

/-- Source: `np.random.normal(0, 1, size=[n, d])`: a batch of `n` latent rows of
dimension `d`. -/
def drawMat : Rng → ℕ → ℕ → List Vec × Rng
  | r, 0, _ => ([], r)
  | r, n + 1, d =>
      let p := draw r d
      let rest := drawMat p.2 n d
      (p.1 :: rest.1, rest.2)

/-- Source: `np.random.randint(0, hi, size=n)`: consume `n` values from the integer
stream, reduced modulo `hi`. -/
def drawIdx (r : Rng) (n hi : ℕ) : List ℕ × Rng :=
  ((List.range n).map (fun i => r.uni (r.pos + i) % hi), { r with pos := r.pos + n })

/-! ### `Y[:k] = v` on a numpy vector -/

/-- Numpy slice assignment `l[:k] = v` on a 1D array. -/
def setFirst (k : ℕ) (v : ℝ) (l : Vec) : Vec :=
  List.replicate (min k l.length) v ++ l.drop k

/-! ### The 1D GAN training loop (cell `ynLndgse0r9V`)

State carried across iterations of `for e in range(epochs)`: both networks'
parameters, the two loss-history lists `d_losses` / `g_losses`, the numpy RNG,
and a ghost step counter used to state the termination claim. -/

structure Trainer1DState where
  disc : Disc1D
  gen : Gen1D
  dLosses : List ℝ
  gLosses : List ℝ
  rng : Rng
  stepCount : ℕ

/-- The Adam parameter-update maps performed inside Keras `train_on_batch`.
`dUpd` is the discriminator update from a training batch with its labels;
`gUpd` is the generator update on the composed `gan` model, which reads the
(frozen) discriminator parameters but — because the `gan` model was compiled
with `discriminator.trainable = False` — only produces new generator
parameters. -/
structure UpdateRules where
  dUpd : Disc1D → Vec → Vec → Disc1D
  gUpd : Gen1D → Disc1D → Vec → Vec → Gen1D

/-- Source: `noise = np.random.normal(0, 1, size=[n_samples, latent_dim])`. -/
def noise1 (s : Trainer1DState) : Vec := (draw s.rng nSamples).1

/-- Source: `real = np.random.normal(real_mean, 1, size=[n_samples, latent_dim])`. -/
noncomputable def real1 (s : Trainer1DState) : Vec :=
  ((draw (draw s.rng nSamples).2 nSamples).1).map (fun v => realMean + v)

/-- Source: `fake = generator.predict(noise)`. -/
noncomputable def fake1 (s : Trainer1DState) : Vec :=
  (noise1 s).map (gen1DForward s.gen)

/-- Source: `X = np.concatenate([real, fake])`. -/
noncomputable def xDis1D (s : Trainer1DState) : Vec := real1 s ++ fake1 s

/-- Source: `Y_dis = np.zeros(2*n_samples)` followed by `Y_dis[:n_samples] = 1`. -/
def yDis1D : Vec := setFirst nSamples 1 (List.replicate (2 * nSamples) 0)

/-- Source: `Y_gen = np.ones(n_samples)`. -/
def yGen1D : Vec := List.replicate nSamples 1

/-- The `d_loss` value returned by `discriminator.train_on_batch(X, Y_dis)`:
batch binary cross-entropy of the discriminator's current predictions on `X`
against `Y_dis`. -/
noncomputable def dLoss1D (s : Trainer1DState) : ℝ :=
  meanBCE yDis1D ((xDis1D s).map (disc1DForward s.disc))

/-- Fresh noise drawn for the generator sub-step
(`noise = np.random.normal(0, 1, size=[n_samples, latent_dim])`, second
occurrence in the loop body). -/
def noise2Of1D (s : Trainer1DState) : Vec := (draw s.rng nSamples).1

/-- The `g_loss` value returned by `gan.train_on_batch(noise, Y_gen)`: batch
binary cross-entropy of the composed model's predictions against all-ones. -/
noncomputable def gLoss1D (s : Trainer1DState) : ℝ :=
  meanBCE yGen1D ((noise2Of1D s).map (gan1DForward s.gen s.disc))

/-- Discriminator sub-step of the 1D loop (lines `noise = ...` through
`d_losses.append(d_loss)`): draw noise and real batches, build `X` and
`Y_dis`, run `discriminator.train_on_batch`, append `d_loss`.  Consumes the
two normal draws. -/
noncomputable def discSubStep1D (u : UpdateRules) (s : Trainer1DState) : Trainer1DState :=
  { s with
    disc := u.dUpd s.disc (xDis1D s) yDis1D
    dLosses := s.dLosses ++ [dLoss1D s]
    rng := (draw (draw s.rng nSamples).2 nSamples).2 }

/-- Generator sub-step of the 1D loop (lines `discriminator.trainable = False`
through `g_losses.append(g_loss)`): draw fresh noise, run
`gan.train_on_batch(noise, Y_gen)` — which, the discriminator being frozen
inside the compiled `gan` model, updates only the generator — and append
`g_loss`.  Consumes one normal draw and counts one completed trainer step. -/
noncomputable def genSubStep1D (u : UpdateRules) (s : Trainer1DState) : Trainer1DState :=
  { s with
    gen := u.gUpd s.gen s.disc (noise2Of1D s) yGen1D
    gLosses := s.gLosses ++ [gLoss1D s]
    rng := (draw s.rng nSamples).2
    stepCount := s.stepCount + 1 }

/-- One iteration of the 1D training loop body: the discriminator sub-step
followed by the generator sub-step (the plotting block every 100 epochs is
visualization-only and elided). -/
noncomputable def step1D (u : UpdateRules) (s : Trainer1DState) : Trainer1DState :=
  genSubStep1D u (discSubStep1D u s)

/-- Source: `for e in range(epochs): ...` — the full 1D training run. -/
noncomputable def run1D (u : UpdateRules) (s : Trainer1DState) : Trainer1DState :=
  (List.range epochs1D).foldl (fun t _ => step1D u t) s

/-! ### The MNIST multilayer-perceptron networks -/

/-- Source: `get_discriminator_MLP`: `Dense(1024, input_dim=784)`, `LeakyReLU(0.2)`,
`Dropout(0.3)`, `Dense(512)`, `LeakyReLU(0.2)`, `Dropout(0.3)`, `Dense(256)`,
`LeakyReLU(0.2)`, `Dense(1, activation='sigmoid')`. -/
structure DiscMLP where
  l1 : DenseParams
  l2 : DenseParams
  l3 : DenseParams
  l4 : DenseParams

/-- Forward pass of the MLP discriminator on one flattened image.  The two
`Dropout(0.3)` layers apply a run-dependent mask in the training phase and are
the identity at inference; they are passed in as arbitrary functions `k1`,
`k2`, so every statement proved below holds for every dropout behaviour. -/
noncomputable def discMLPForward (k1 k2 : Vec → Vec) (p : DiscMLP) (x : Vec) : ℝ :=
  let h1 := k1 ((denseFwd p.l1 x).map (leakyReLU 0.2))
  let h2 := k2 ((denseFwd p.l2 h1).map (leakyReLU 0.2))
  let h3 := (denseFwd p.l3 h2).map (leakyReLU 0.2)
  sigmoid ((denseFwd p.l4 h3).headI)

/-- Source: `get_generator_MLP`: `Dense(256, input_dim=latent_dim)`, `LeakyReLU(0.2)`,
`Dense(512)`, `LeakyReLU(0.2)`, `Dense(1024)`, `LeakyReLU(0.2)`,
`Dense(784, activation='tanh')`. -/
structure GenMLP where
  l1 : DenseParams
  l2 : DenseParams
  l3 : DenseParams
  l4 : DenseParams

/-- Forward pass of the MLP generator on one latent row. -/
noncomputable def genMLPForward (p : GenMLP) (z : Vec) : Vec :=
  let h1 := (denseFwd p.l1 z).map (leakyReLU 0.2)
  let h2 := (denseFwd p.l2 h1).map (leakyReLU 0.2)
  let h3 := (denseFwd p.l3 h2).map (leakyReLU 0.2)
  (denseFwd p.l4 h3).map Real.tanh

/-! ### The MNIST MLP GAN training loop (cell `eYInR4WkXj_g`) -/

/-- Environment of the MNIST loop: the Keras update maps (as for the 1D loop,
`gUpd` acts on the `gan` model compiled with the discriminator frozen, so it
only produces generator parameters), the dropout masks active during training,
and the prepared training array `X_train` (one flattened row per image). -/
structure MnistEnv where
  dUpd : DiscMLP → List Vec → Vec → DiscMLP
  gUpd : GenMLP → DiscMLP → List Vec → Vec → GenMLP
  drop1 : Vec → Vec
  drop2 : Vec → Vec
  XTrain : List Vec

/-- Source: `batch_count = int(X_train.shape[0] / batch_size)`. -/
def batchCountOf (m : MnistEnv) : ℕ := m.XTrain.length / batchSizeM

/-- State carried by the MNIST loop.  Python keeps the most recent `d_loss`
and `g_loss` in loop variables and appends them to the histories only once per
epoch; `lastD` / `lastG` model those loop variables. -/
structure MnistState where
  disc : DiscMLP
  gen : GenMLP
  dLosses : List ℝ
  gLosses : List ℝ
  lastD : ℝ
  lastG : ℝ
  rng : Rng
  stepCount : ℕ

/-- Source: `noise = np.random.normal(0, 1, size=[batch_size, latent_dim])`. -/
def noiseM (t : MnistState) : List Vec := (drawMat t.rng batchSizeM latentDimM).1

/-- Source: `image_batch = X_train[np.random.randint(0, X_train.shape[0],
size=batch_size)]`. -/
def realM (m : MnistEnv) (t : MnistState) : List Vec :=
  ((drawIdx (drawMat t.rng batchSizeM latentDimM).2 batchSizeM m.XTrain.length).1).map
    (fun i => m.XTrain.getD i (List.replicate 784 0))

/-- Source: `generated_images = generator.predict(noise)`. -/
noncomputable def fakeM (t : MnistState) : List Vec :=
  (noiseM t).map (genMLPForward t.gen)

/-- Source: `X = np.concatenate([image_batch, generated_images])`. -/
noncomputable def xDisM (m : MnistEnv) (t : MnistState) : List Vec :=
  realM m t ++ fakeM t

/-- Source: `y_dis = np.zeros(2*batch_size)` followed by the one-sided label smoothing
`y_dis[:batch_size] = 0.9`. -/
def yDisM : Vec := setFirst batchSizeM 0.9 (List.replicate (2 * batchSizeM) 0)

/-- Source: `y_gen = np.ones(batch_size)`. -/
def yGenM : Vec := List.replicate batchSizeM 1

/-- The `d_loss` value returned by `discriminator.train_on_batch(X, y_dis)`. -/
noncomputable def dLossM (m : MnistEnv) (t : MnistState) : ℝ :=
  meanBCE yDisM ((xDisM m t).map (discMLPForward m.drop1 m.drop2 t.disc))

/-- Fresh noise drawn for the generator sub-step of the MNIST loop. -/
def noise2OfM (t : MnistState) : List Vec := (drawMat t.rng batchSizeM latentDimM).1

/-- The `g_loss` value returned by `gan.train_on_batch(noise, y_gen)`. -/
noncomputable def gLossM (m : MnistEnv) (t : MnistState) : ℝ :=
  meanBCE yGenM ((noise2OfM t).map
    (fun z => discMLPForward m.drop1 m.drop2 t.disc (genMLPForward t.gen z)))

/-- Discriminator sub-step of the MNIST inner loop body: draw noise and an
image batch, build `X` and `y_dis`, run `discriminator.train_on_batch`; the
returned loss lands in the loop variable `d_loss` (field `lastD`), not in the
history.  Consumes one normal-matrix draw and one `randint` draw. -/
noncomputable def mnistDiscSub (m : MnistEnv) (t : MnistState) : MnistState :=
  { t with
    disc := m.dUpd t.disc (xDisM m t) yDisM
    lastD := dLossM m t
    rng := (drawIdx (drawMat t.rng batchSizeM latentDimM).2 batchSizeM m.XTrain.length).2 }

/-- Generator sub-step of the MNIST inner loop body: draw fresh noise, freeze
the discriminator, run `gan.train_on_batch(noise, y_gen)` — updating only the
generator — and store the returned loss in the loop variable `g_loss` (field
`lastG`).  Counts one completed trainer step. -/
noncomputable def mnistGenSub (m : MnistEnv) (t : MnistState) : MnistState :=
  { t with
    gen := m.gUpd t.gen t.disc (noise2OfM t) yGenM
    lastG := gLossM m t
    rng := (drawMat t.rng batchSizeM latentDimM).2
    stepCount := t.stepCount + 1 }

/-- One iteration of `for _ in range(batch_count)`: discriminator sub-step
followed by generator sub-step.  Note that the loss histories are untouched
here — the appends sit outside the inner loop in the source. -/
noncomputable def mnistInnerStep (m : MnistEnv) (t : MnistState) : MnistState :=
  mnistGenSub m (mnistDiscSub m t)

/-- One iteration of `for e in range(epochs)`: run the inner loop
`batch_count` times, then `d_losses.append(d_loss)` and
`g_losses.append(g_loss)` record the most recent batch's losses (the plotting
/ model-saving block every 5 epochs is visualization-only and elided). -/
noncomputable def mnistEpoch (m : MnistEnv) (t : MnistState) : MnistState :=
  let t1 := (List.range (batchCountOf m)).foldl (fun a _ => mnistInnerStep m a) t
  { t1 with
    dLosses := t1.dLosses ++ [t1.lastD]
    gLosses := t1.gLosses ++ [t1.lastG] }

/-- The full MNIST MLP GAN training run. -/
noncomputable def runMNIST (m : MnistEnv) (t : MnistState) : MnistState :=
  (List.range epochsM).foldl (fun a _ => mnistEpoch m a) t

/-! ### Seeding and the (real batch, latent batch) draw sequence (1D loop)

`random.seed(0)` in the import cell mutates the state of Python's `random`
module only.  The draws of the training loop all go through numpy's global
`RandomState`, which the program never seeds. -/

/-- The two random-number-generator states live side by side in the running
program: the Python `random` module state `py` and numpy's global state
`np`. -/
structure ProgState where
  py : ℕ
  np : Rng

/-- Python's `random.seed(n)` derives the `random` module state
deterministically from `n` (the Mersenne-twister seeding map, abstracted to
the identity: all that matters is that it is a function of `n` and that it
touches only the `py` component). -/
def pySeed (n : ℕ) : ℕ := n

/-- Program start: `random.seed(seed)` is executed once; numpy's global
`RandomState` keeps whatever entropy-derived initial state `npEntropy` the
process happened to get. -/
def programStart (seed : ℕ) (npEntropy : Rng) : ProgState :=
  ⟨pySeed seed, npEntropy⟩

/-- The draws of one 1D loop iteration, in source order: latent batch, real
batch, fresh latent batch for the generator sub-step.  Returns the (real
batch, latent batch) pair the claim speaks about and the advanced RNG. -/
noncomputable def stepDrawPair (r : Rng) : (Vec × Vec) × Rng :=
  let p1 := draw r nSamples
  let p2 := draw p1.2 nSamples
  let p3 := draw p2.2 nSamples
  ((p2.1.map (fun v => realMean + v), p1.1), p3.2)

/-- The sequence of (real batch, latent batch) pairs drawn by the first `k`
iterations of the 1D training loop, starting from numpy state `r`. -/
noncomputable def drawSeq : ℕ → Rng → List (Vec × Vec)
  | 0, _ => []
  | k + 1, r =>
      let p := stepDrawPair r
      p.1 :: drawSeq k p.2

/-- The (real batch, latent batch) draw sequence of a program run: the
training loop reads numpy's global state, which `random.seed` never set. -/
noncomputable def runDrawSeq (st : ProgState) (k : ℕ) : List (Vec × Vec) :=
  drawSeq k st.np

/-! ### Latent-space interpolation (cell `_NlTG4FBkNpC`) -/

/-- The interpolated latent point for loop index `ni`:
`float(ni)/10. * noise_a + (1 - float(ni)/10.) * noise_b`, broadcast over the
row. -/
noncomputable def interpPoint (a b : Vec) (ni : ℕ) : Vec :=
  List.zipWith (fun x y => ((ni : ℝ) / 10) * x + (1 - (ni : ℝ) / 10) * y) a b

/-- The interpolation loop: `noise = np.zeros((10, latent_dim))`, then
`for ni in range(10): noise[ni, :] = ...`. -/
noncomputable def interpRows (a b : Vec) : List Vec :=
  (List.range 10).foldl (fun M ni => M.set ni (interpPoint a b ni))
    (List.replicate 10 (List.replicate latentDimM 0))

/-! ### Dataset loaders (`loadMNIST`, `loadPatchCamelyon`)

Pickled numpy arrays are embedded as a flat data list (rationals: the values
play no role beyond being numeric) together with a shape.  `np.resize`
repeats the data cyclically to fill the requested shape (zeros if the source
is empty), which is exactly `cycleTake`. -/

structure NDArray where
  shape : List ℕ
  data : List ℚ

/-- First `n` entries of the cyclic extension of `l` (zeros if `l` is
empty) — the data part of `np.resize`. -/
def cycleTake (n : ℕ) (l : List ℚ) : List ℚ :=
  (List.range n).map (fun i => l.getD (i % l.length) 0)

/-- Source: `np.resize(a, s)`. -/
def npResize (a : NDArray) (s : List ℕ) : NDArray :=
  ⟨s, cycleTake s.prod a.data⟩

/-- Source: `np.pad(a, ((0,0),(2,2),(2,2),(0,0)), 'constant', constant_values=0)` on a
4-dimensional array: two zero rows/columns are added on each side of the two
middle dimensions. -/
def npPadHW2 (a : NDArray) : NDArray :=
  let n := a.shape.getD 0 0
  let h := a.shape.getD 1 0
  let w := a.shape.getD 2 0
  let c := a.shape.getD 3 0
  ⟨[n, h + 4, w + 4, c],
    (List.range (n * ((h + 4) * ((w + 4) * c)))).map (fun t =>
      let l := t % c
      let k := t / c % (w + 4)
      let j := t / (c * (w + 4)) % (h + 4)
      let i := t / (c * (w + 4) * (h + 4))
      if 2 ≤ j ∧ j < h + 2 ∧ 2 ≤ k ∧ k < w + 2 then
        a.data.getD (((i * h + (j - 2)) * w + (k - 2)) * c + l) 0
      else 0)⟩

/-- Content of the pickled `mnist.pkl.gz` file: three `(data, labels)`
splits. -/
structure MnistFile where
  trainData : NDArray
  trainLabels : List ℤ
  validData : NDArray
  validLabels : List ℤ
  testData : NDArray
  testLabels : List ℤ

/-- One returned split: a label vector paired with the images array. -/
structure LabeledSplit where
  labels : List ℤ
  images : NDArray

/-- Source: `loadMNIST` of the GAN notebook: per split, keep the labels and resize the
data to `(len(labels), 28, 28, 1)`; returns
`train_set_labels, train_set_images, valid_set_labels, valid_set_images,
test_set_labels, test_set_images`. -/
def loadMNIST (f : MnistFile) : LabeledSplit × LabeledSplit × LabeledSplit :=
  (⟨f.trainLabels, npResize f.trainData [f.trainLabels.length, 28, 28, 1]⟩,
   ⟨f.validLabels, npResize f.validData [f.validLabels.length, 28, 28, 1]⟩,
   ⟨f.testLabels, npResize f.testData [f.testLabels.length, 28, 28, 1]⟩)

/-- Source: `loadMNIST` of the LeNet notebook: same as the GAN notebook's loader, with
each images array additionally zero-padded to `(len(labels), 32, 32, 1)`. -/
def loadMNISTLeNet (f : MnistFile) : LabeledSplit × LabeledSplit × LabeledSplit :=
  (⟨f.trainLabels, npPadHW2 (npResize f.trainData [f.trainLabels.length, 28, 28, 1])⟩,
   ⟨f.validLabels, npPadHW2 (npResize f.validData [f.validLabels.length, 28, 28, 1])⟩,
   ⟨f.testLabels, npPadHW2 (npResize f.testData [f.testLabels.length, 28, 28, 1])⟩)

/-- Source: `loadPatchCamelyon`: unpickle and return the train set as is — image
arrays only, no labels anywhere in its type. -/
def loadPatchCamelyon (trainSet : NDArray) : NDArray := trainSet

/-! ### One-hot encoding (LeNet notebook, cell-8) -/

/-- Source: `int16(labels == n)` for a single label. -/
def labelInd (l n : ℤ) : ℤ := if l = n then 1 else 0

/-- The column assignment `train_set_labels_output[:, n] = train_set_labels
== n`: in every row `i`, entry `n` becomes `labelInd labels[i] n`. -/
def assignCol (labels : List ℤ) (n : ℕ) (M : List (List ℤ)) : List (List ℤ) :=
  List.zipWith (fun row l => row.set n (labelInd l n)) M labels

/-- The one-hot encoding cell: `np.zeros((len(labels), 10), dtype=np.int16)`
followed by `for n in range(10): output[:, n] = labels == n`. -/
def oneHot (labels : List ℤ) : List (List ℤ) :=
  (List.range 10).foldl (fun M n => assignCol labels n M)
    (labels.map (fun _ => List.replicate 10 0))

/-- The per-row effect of the one-hot loop (derived below, not part of the
source): fold the ten column assignments over a single row. -/
def oneHotRow (l : ℤ) : List ℤ :=
  (List.range 10).foldl (fun r n => r.set n (labelInd l n)) (List.replicate 10 0)

/-! ## Helper lemmas -/

lemma sigmoid_pos (x : ℝ) : 0 < sigmoid x := by
  unfold sigmoid
  positivity

lemma sigmoid_le_one (x : ℝ) : sigmoid x ≤ 1 := by
  unfold sigmoid
  rw [div_le_one (by positivity)]
  linarith [Real.exp_pos (-x)]

lemma disc1DForward_mem (p : Disc1D) (x : ℝ) :
    0 ≤ disc1DForward p x ∧ disc1DForward p x ≤ 1 :=
  ⟨le_of_lt (sigmoid_pos _), sigmoid_le_one _⟩

lemma discMLPForward_mem (k1 k2 : Vec → Vec) (p : DiscMLP) (x : Vec) :
    0 ≤ discMLPForward k1 k2 p x ∧ discMLPForward k1 k2 p x ≤ 1 :=
  ⟨le_of_lt (sigmoid_pos _), sigmoid_le_one _⟩

lemma kerasEpsilon_pos : 0 < kerasEpsilon := by
  unfold kerasEpsilon
  norm_num

lemma clip01_nonneg (p : ℝ) : 0 ≤ clip01 p :=
  le_trans (le_of_lt kerasEpsilon_pos) (le_max_left _ _)

lemma clip01_le_one (p : ℝ) : clip01 p ≤ 1 := by
  unfold clip01
  have h1 : kerasEpsilon ≤ 1 - kerasEpsilon := by
    unfold kerasEpsilon
    norm_num
  have h2 : (1 : ℝ) - kerasEpsilon ≤ 1 := by
    linarith [kerasEpsilon_pos]
  exact max_le (le_trans h1 h2) (le_trans (min_le_right _ _) h2)

lemma bce_nonneg {y p : ℝ} (hy0 : 0 ≤ y) (hy1 : y ≤ 1) (hp0 : 0 ≤ p) (hp1 : p ≤ 1) :
    0 ≤ bce y p := by
  unfold bce
  have l1 : Real.log p ≤ 0 := Real.log_nonpos hp0 hp1
  have l2 : Real.log (1 - p) ≤ 0 := Real.log_nonpos (by linarith) (by linarith)
  have m1 : y * Real.log p ≤ 0 := mul_nonpos_of_nonneg_of_nonpos hy0 l1
  have m2 : (1 - y) * Real.log (1 - p) ≤ 0 :=
    mul_nonpos_of_nonneg_of_nonpos (by linarith) l2
  linarith

lemma zipWith_bce_sum_nonneg :
    ∀ (ys ps : Vec), (∀ y ∈ ys, 0 ≤ y ∧ y ≤ 1) →
      0 ≤ (List.zipWith (fun y p => bce y (clip01 p)) ys ps).sum
  | [], _, _ => by simp
  | _ :: _, [], _ => by simp
  | y :: ys, p :: ps, h => by
      simp only [List.zipWith_cons_cons, List.sum_cons]
      have hy := h y (List.mem_cons_self y ys)
      have h0 : 0 ≤ bce y (clip01 p) :=
        bce_nonneg hy.1 hy.2 (clip01_nonneg p) (clip01_le_one p)
      have hrest : 0 ≤ (List.zipWith (fun a b => bce a (clip01 b)) ys ps).sum :=
        zipWith_bce_sum_nonneg ys ps (fun z hz => h z (List.mem_cons_of_mem _ hz))
      linarith

lemma meanBCE_nonneg {ys ps : Vec} (h : ∀ y ∈ ys, 0 ≤ y ∧ y ≤ 1) :
    0 ≤ meanBCE ys ps := by
  unfold meanBCE
  exact div_nonneg (zipWith_bce_sum_nonneg ys ps h) (Nat.cast_nonneg _)

lemma setFirst_replicate (n : ℕ) (v c : ℝ) :
    setFirst n v (List.replicate (2 * n) c) = List.replicate n v ++ List.replicate n c := by
  unfold setFirst
  rw [List.length_replicate, List.drop_replicate]
  have h1 : min n (2 * n) = n := by omega
  have h2 : 2 * n - n = n := by omega
  rw [h1, h2]

lemma yDis1D_eq : yDis1D = List.replicate nSamples 1 ++ List.replicate nSamples 0 :=
  setFirst_replicate nSamples 1 0

lemma yDisM_eq : yDisM = List.replicate batchSizeM 0.9 ++ List.replicate batchSizeM 0 :=
  setFirst_replicate batchSizeM 0.9 0

lemma yDis1D_mem : ∀ y ∈ yDis1D, 0 ≤ y ∧ y ≤ 1 := by
  rw [yDis1D_eq]
  intro y hy
  rcases List.mem_append.1 hy with h | h <;>
    rcases List.eq_of_mem_replicate h with rfl <;> norm_num

lemma yDisM_mem : ∀ y ∈ yDisM, 0 ≤ y ∧ y ≤ 1 := by
  rw [yDisM_eq]
  intro y hy
  rcases List.mem_append.1 hy with h | h <;>
    rcases List.eq_of_mem_replicate h with rfl <;> norm_num

lemma yGen1D_mem : ∀ y ∈ yGen1D, 0 ≤ y ∧ y ≤ 1 := by
  intro y hy
  rcases List.eq_of_mem_replicate hy with rfl
  norm_num

lemma yGenM_mem : ∀ y ∈ yGenM, 0 ≤ y ∧ y ≤ 1 := by
  intro y hy
  rcases List.eq_of_mem_replicate hy with rfl
  norm_num

lemma dLoss1D_nonneg (s : Trainer1DState) : 0 ≤ dLoss1D s :=
  meanBCE_nonneg yDis1D_mem

lemma gLoss1D_nonneg (s : Trainer1DState) : 0 ≤ gLoss1D s :=
  meanBCE_nonneg yGen1D_mem

lemma dLossM_nonneg (m : MnistEnv) (t : MnistState) : 0 ≤ dLossM m t :=
  meanBCE_nonneg yDisM_mem

lemma gLossM_nonneg (m : MnistEnv) (t : MnistState) : 0 ≤ gLossM m t :=
  meanBCE_nonneg yGenM_mem

lemma foldl_range_const {α : Type} (f : α → α) :
    ∀ (n : ℕ) (a : α), (List.range n).foldl (fun x _ => f x) a = f^[n] a := by
  intro n
  induction n with
  | zero => intro a; simp
  | succ k ih =>
      intro a
      rw [List.range_succ, List.foldl_append, ih a]
      simp [Function.iterate_succ_apply']

lemma iterate_count {α : Type} (f : α → α) (g : α → ℕ) (B : ℕ)
    (hf : ∀ a, g (f a) = g a + B) :
    ∀ (n : ℕ) (a : α), g (f^[n] a) = g a + n * B := by
  intro n
  induction n with
  | zero => intro a; simp
  | succ k ih =>
      intro a
      rw [Function.iterate_succ_apply', hf, ih]
      ring

lemma draw_length : ∀ (n : ℕ) (r : Rng), ((draw r n).1).length = n
  | 0, _ => rfl
  | n + 1, r => by
      simp only [draw, List.length_cons]
      rw [draw_length n]

lemma drawMat_length : ∀ (n : ℕ) (d : ℕ) (r : Rng), ((drawMat r n d).1).length = n
  | 0, _, _ => rfl
  | n + 1, d, r => by
      simp only [drawMat, List.length_cons]
      rw [drawMat_length n]

lemma drawIdx_length (r : Rng) (n hi : ℕ) : ((drawIdx r n hi).1).length = n := by
  simp [drawIdx]

lemma draw_headI (r : Rng) : ((draw r nSamples).1).headI = r.nrm r.pos := rfl

lemma real1_length (s : Trainer1DState) : (real1 s).length = nSamples := by
  unfold real1
  rw [List.length_map, draw_length]

lemma fake1_length (s : Trainer1DState) : (fake1 s).length = nSamples := by
  unfold fake1 noise1
  rw [List.length_map, draw_length]

lemma realM_length (m : MnistEnv) (t : MnistState) : (realM m t).length = batchSizeM := by
  unfold realM
  rw [List.length_map, drawIdx_length]

lemma fakeM_length (t : MnistState) : (fakeM t).length = batchSizeM := by
  unfold fakeM noiseM
  rw [List.length_map, drawMat_length]

lemma mnistInnerStep_dLosses (m : MnistEnv) (t : MnistState) :
    (mnistInnerStep m t).dLosses = t.dLosses := rfl

lemma mnistInnerStep_gLosses (m : MnistEnv) (t : MnistState) :
    (mnistInnerStep m t).gLosses = t.gLosses := rfl

lemma mnistIter_dLosses (m : MnistEnv) :
    ∀ (n : ℕ) (t : MnistState), ((mnistInnerStep m)^[n] t).dLosses = t.dLosses := by
  intro n
  induction n with
  | zero => intro t; rfl
  | succ k ih =>
      intro t
      rw [Function.iterate_succ_apply', mnistInnerStep_dLosses, ih]

lemma mnistIter_gLosses (m : MnistEnv) :
    ∀ (n : ℕ) (t : MnistState), ((mnistInnerStep m)^[n] t).gLosses = t.gLosses := by
  intro n
  induction n with
  | zero => intro t; rfl
  | succ k ih =>
      intro t
      rw [Function.iterate_succ_apply', mnistInnerStep_gLosses, ih]

lemma mnistInnerStep_lastD_nonneg (m : MnistEnv) (t : MnistState) :
    0 ≤ (mnistInnerStep m t).lastD :=
  dLossM_nonneg m t

lemma mnistInnerStep_lastG_nonneg (m : MnistEnv) (t : MnistState) :
    0 ≤ (mnistInnerStep m t).lastG :=
  gLossM_nonneg m (mnistDiscSub m t)

/-! ### Interpolation helper lemmas -/

lemma interpRows_eq (a b : Vec) :
    interpRows a b =
      [interpPoint a b 0, interpPoint a b 1, interpPoint a b 2, interpPoint a b 3,
       interpPoint a b 4, interpPoint a b 5, interpPoint a b 6, interpPoint a b 7,
       interpPoint a b 8, interpPoint a b 9] := rfl

lemma interpRows_getD (a b : Vec) (ni : ℕ) (h : ni < 10) :
    (interpRows a b).getD ni [] = interpPoint a b ni := by
  rw [interpRows_eq]
  interval_cases ni <;> rfl

lemma interpPoint_zero : ∀ (a b : Vec), a.length = b.length → interpPoint a b 0 = b
  | [], [], _ => rfl
  | [], _ :: _, h => by simp at h
  | _ :: _, [], h => by simp at h
  | x :: xs, y :: ys, h => by
      have hl : xs.length = ys.length := by
        simpa using h
      have ih := interpPoint_zero xs ys hl
      simp only [interpPoint, List.zipWith_cons_cons] at ih ⊢
      rw [ih]
      have hh : (((0 : ℕ) : ℝ) / 10) * x + (1 - ((0 : ℕ) : ℝ) / 10) * y = y := by
        push_cast
        ring
      rw [hh]

lemma interpPoint_eq_imp (ni : ℕ) (hni : ni < 10) :
    ∀ (a b : Vec), a.length = b.length → interpPoint a b ni = a → b = a := by
  have hc : (ni : ℝ) / 10 ≠ 1 := by
    have hlt : (ni : ℝ) < 10 := by exact_mod_cast hni
    have : (ni : ℝ) / 10 < 1 := by linarith [div_lt_one (show (0:ℝ) < 10 by norm_num) |>.2 hlt]
    exact ne_of_lt this
  intro a
  induction a with
  | nil =>
      intro b hl _
      simpa using (List.length_eq_zero.1 hl.symm)
  | cons x xs ih =>
      intro b hl heq
      cases b with
      | nil => simp at hl
      | cons y ys =>
          have hl2 : xs.length = ys.length := by simpa using hl
          simp only [interpPoint, List.zipWith_cons_cons, List.cons.injEq] at heq
          have hy : y = x := by
            have h1 : (1 - (ni : ℝ) / 10) * y = (1 - (ni : ℝ) / 10) * x := by
              linarith [heq.1]
            have h2 : (1 : ℝ) - (ni : ℝ) / 10 ≠ 0 := sub_ne_zero.2 (Ne.symm hc)
            exact mul_left_cancel₀ h2 h1
          have := ih ys hl2 heq.2
          rw [hy, this]

/-! ### One-hot encoding helper lemmas -/

lemma zipWith_self_map {α β γ : Type} (F : β → α → γ) (g : α → β) :
    ∀ l : List α, List.zipWith F (l.map g) l = l.map (fun x => F (g x) x)
  | [] => rfl
  | x :: xs => by
      simp only [List.map_cons, List.zipWith_cons_cons]
      rw [zipWith_self_map F g xs]

lemma assignCol_map (labels : List ℤ) (n : ℕ) (g : ℤ → List ℤ) :
    assignCol labels n (labels.map g) =
      labels.map (fun l => (g l).set n (labelInd l n)) :=
  zipWith_self_map _ g labels

lemma oneHot_foldl (labels : List ℤ) :
    ∀ (k : ℕ) (g : ℤ → List ℤ),
      (List.range k).foldl (fun M n => assignCol labels n M) (labels.map g) =
        labels.map (fun l =>
          (List.range k).foldl (fun r n => r.set n (labelInd l n)) (g l)) := by
  intro k
  induction k with
  | zero => intro g; simp
  | succ j ih =>
      intro g
      rw [List.range_succ]
      simp only [List.foldl_append, List.foldl_cons, List.foldl_nil]
      rw [ih g]
      exact assignCol_map labels j _

lemma oneHot_eq_map (labels : List ℤ) : oneHot labels = labels.map oneHotRow := by
  unfold oneHot oneHotRow
  exact oneHot_foldl labels 10 (fun _ => List.replicate 10 0)

lemma oneHotRow_spec (l : ℤ) (h0 : 0 ≤ l) (h9 : l ≤ 9) :
    (oneHotRow l).length = 10 ∧ (oneHotRow l).getD l.toNat 0 = 1 ∧
      (∀ j : ℕ, j < 10 → (j : ℤ) ≠ l → (oneHotRow l).getD j 0 = 0) ∧
      (oneHotRow l).sum = 1 := by
  interval_cases l <;>
    exact ⟨by decide, by decide, by decide, by decide⟩

lemma getD_map_lt {α β : Type} (f : α → β) (dA : α) (dB : β) :
    ∀ (l : List α) (i : ℕ), i < l.length → (l.map f).getD i dB = f (l.getD i dA)
  | [], i, h => by simp at h
  | x :: xs, 0, _ => rfl
  | x :: xs, i + 1, h => by
      simp only [List.map_cons, List.getD_cons_succ]
      exact getD_map_lt f dA dB xs i (by simpa using h)

lemma mnistEpoch_dLosses (m : MnistEnv) (t : MnistState) :
    (mnistEpoch m t).dLosses =
      t.dLosses ++ [((mnistInnerStep m)^[batchCountOf m] t).lastD] := by
  have h := foldl_range_const (mnistInnerStep m) (batchCountOf m) t
  show ((List.range (batchCountOf m)).foldl (fun a _ => mnistInnerStep m a) t).dLosses ++
        [((List.range (batchCountOf m)).foldl (fun a _ => mnistInnerStep m a) t).lastD] =
      t.dLosses ++ [((mnistInnerStep m)^[batchCountOf m] t).lastD]
  rw [h, mnistIter_dLosses]

lemma mnistEpoch_gLosses (m : MnistEnv) (t : MnistState) :
    (mnistEpoch m t).gLosses =
      t.gLosses ++ [((mnistInnerStep m)^[batchCountOf m] t).lastG] := by
  have h := foldl_range_const (mnistInnerStep m) (batchCountOf m) t
  show ((List.range (batchCountOf m)).foldl (fun a _ => mnistInnerStep m a) t).gLosses ++
        [((List.range (batchCountOf m)).foldl (fun a _ => mnistInnerStep m a) t).lastG] =
      t.gLosses ++ [((mnistInnerStep m)^[batchCountOf m] t).lastG]
  rw [h, mnistIter_gLosses]

lemma mnistEpoch_stepCount (m : MnistEnv) (t : MnistState) :
    (mnistEpoch m t).stepCount = t.stepCount + batchCountOf m := by
  have h := foldl_range_const (mnistInnerStep m) (batchCountOf m) t
  show ((List.range (batchCountOf m)).foldl (fun a _ => mnistInnerStep m a) t).stepCount =
      t.stepCount + batchCountOf m
  rw [h]
  have := iterate_count (mnistInnerStep m) (fun x => x.stepCount) 1
    (fun a => rfl) (batchCountOf m) t
  simpa using this

/-! ## Concrete instances, used to instantiate the quantified theorems below -/

/-- Empty-weight 1D discriminator parameters. -/
def disc1D0 : Disc1D := ⟨⟨[], []⟩, ⟨[], []⟩⟩

/-- Empty-weight 1D generator parameters. -/
def gen1D0 : Gen1D := ⟨⟨[], []⟩, ⟨[], []⟩⟩

/-- A constant-zero RNG state. -/
def rng0 : Rng := ⟨fun _ => 0, fun _ => 0, 0⟩

/-- A constant-one RNG state (differs from `rng0` in its normal stream). -/
def rng1 : Rng := ⟨fun _ => 1, fun _ => 0, 0⟩

/-- A concrete 1D trainer start state with empty loss histories. -/
def st1D0 : Trainer1DState := ⟨disc1D0, gen1D0, [], [], rng0, 0⟩

/-- Identity update rules (the theorems hold for arbitrary update maps). -/
def upd0 : UpdateRules := ⟨fun d _ _ => d, fun g _ _ _ => g⟩

/-- Empty-weight MLP discriminator parameters. -/
def discMLP0 : DiscMLP := ⟨⟨[], []⟩, ⟨[], []⟩, ⟨[], []⟩, ⟨[], []⟩⟩

/-- Empty-weight MLP generator parameters. -/
def genMLP0 : GenMLP := ⟨⟨[], []⟩, ⟨[], []⟩, ⟨[], []⟩, ⟨[], []⟩⟩

/-- A concrete MNIST environment whose training array holds exactly one
batch of blank images (so `batch_count = 1`). -/
def env0 : MnistEnv :=
  ⟨fun d _ _ => d, fun g _ _ _ => g, id, id,
   List.replicate 128 (List.replicate 784 0)⟩

/-- A concrete MNIST start state with empty loss histories. -/
def stM0 : MnistState := ⟨discMLP0, genMLP0, [], [], 0, 0, rng0, 0⟩

/-! ## The claims -/

/-- Claim C1: in every training step of both adversarial training loops the
discriminator parameter update is performed strictly before the generator
parameter update.  Formally: the loop body is exactly the discriminator
sub-step followed by the generator sub-step; the discriminator sub-step
leaves the generator parameters untouched, so at no reachable intermediate
state of a step has the generator been updated before the discriminator
update of that step; the generator sub-step leaves the discriminator at its
just-updated value; and the generator update itself consumes the
already-updated discriminator parameters. -/
theorem claim_C1 (u : UpdateRules) (s : Trainer1DState) (m : MnistEnv) (t : MnistState) :
    (step1D u s = genSubStep1D u (discSubStep1D u s)
      ∧ (discSubStep1D u s).gen = s.gen
      ∧ (step1D u s).disc = (discSubStep1D u s).disc
      ∧ (step1D u s).gen =
          u.gUpd s.gen (discSubStep1D u s).disc (noise2Of1D (discSubStep1D u s)) yGen1D)
    ∧ (mnistInnerStep m t = mnistGenSub m (mnistDiscSub m t)
      ∧ (mnistDiscSub m t).gen = t.gen
      ∧ (mnistInnerStep m t).disc = (mnistDiscSub m t).disc
      ∧ (mnistInnerStep m t).gen =
          m.gUpd t.gen (mnistDiscSub m t).disc (noise2OfM (mnistDiscSub m t)) yGenM) :=
  ⟨⟨rfl, rfl, rfl, rfl⟩, ⟨rfl, rfl, rfl, rfl⟩⟩

/-- Claim C3: the generator-update sub-step — one optimization step on the
composed `gan` model (`gan1DForward`, i.e. discriminator applied to
generator output) with the discriminator frozen — leaves every discriminator
parameter unchanged, and also leaves the discriminator loss bookkeeping
unchanged; only the generator side of the state is touched.  Stated for both
the 1D and the MNIST loop. -/
theorem claim_C3 (u : UpdateRules) (t : Trainer1DState) (m : MnistEnv) (q : MnistState) :
    ((genSubStep1D u t).disc = t.disc
      ∧ (genSubStep1D u t).dLosses = t.dLosses
      ∧ (genSubStep1D u t).gLosses =
          t.gLosses ++ [meanBCE yGen1D ((noise2Of1D t).map (gan1DForward t.gen t.disc))])
    ∧ ((mnistGenSub m q).disc = q.disc
      ∧ (mnistGenSub m q).lastD = q.lastD
      ∧ (mnistGenSub m q).dLosses = q.dLosses) :=
  ⟨⟨rfl, rfl, rfl⟩, ⟨rfl, rfl, rfl⟩⟩

/-- Claim C6: for every input sample batch (of any content and shape, so in
particular for real and synthetic batches of the target shape), every value
the discriminator's forward pass produces lies in the closed interval
`[0, 1]` — the final layer is a sigmoid.  Stated for the 1D discriminator
and for the MNIST MLP discriminator under arbitrary dropout behaviour. -/
theorem claim_C6 (p : Disc1D) (q : DiscMLP) (k1 k2 : Vec → Vec) (xs : Vec) (vs : List Vec) :
    (∀ y ∈ xs.map (disc1DForward p), 0 ≤ y ∧ y ≤ 1)
    ∧ (∀ y ∈ vs.map (discMLPForward k1 k2 q), 0 ≤ y ∧ y ≤ 1) := by
  constructor
  · intro y hy
    rcases List.mem_map.1 hy with ⟨x, _, rfl⟩
    exact disc1DForward_mem p x
  · intro y hy
    rcases List.mem_map.1 hy with ⟨x, _, rfl⟩
    exact discMLPForward_mem k1 k2 q x

/-- Witness for C6 at a concrete batch and concrete (empty) parameters. -/
theorem claim_C6_witness :
    0 ≤ disc1DForward disc1D0 0 ∧ disc1DForward disc1D0 0 ≤ 1 :=
  (claim_C6 disc1D0 discMLP0 id id [0] []).1 (disc1DForward disc1D0 0) (by simp)

/-- Claim C8: both training runs execute exactly the fixed iteration count of
trainer steps (`epochs` = 10000 steps for the 1D loop, `epochs ×
batch_count` for the MNIST loop), independent of any loss value: each run
equals the plain iterate of its step function, with no convergence-based or
adaptive stopping condition. -/
theorem claim_C8 (u : UpdateRules) (s : Trainer1DState) (m : MnistEnv) (t : MnistState) :
    (run1D u s = (step1D u)^[epochs1D] s
      ∧ (run1D u s).stepCount = s.stepCount + epochs1D)
    ∧ (runMNIST m t = (mnistEpoch m)^[epochsM] t
      ∧ (runMNIST m t).stepCount = t.stepCount + epochsM * batchCountOf m) := by
  have h1 : run1D u s = (step1D u)^[epochs1D] s :=
    foldl_range_const (step1D u) epochs1D s
  have h2 : (run1D u s).stepCount = s.stepCount + epochs1D := by
    rw [h1]
    have := iterate_count (step1D u) (fun a => a.stepCount) 1
      (fun a => rfl) epochs1D s
    simpa using this
  have h3 : runMNIST m t = (mnistEpoch m)^[epochsM] t :=
    foldl_range_const (mnistEpoch m) epochsM t
  have h4 : (runMNIST m t).stepCount = t.stepCount + epochsM * batchCountOf m := by
    rw [h3]
    exact iterate_count (mnistEpoch m) (fun a => a.stepCount) (batchCountOf m)
      (fun a => mnistEpoch_stepCount m a) epochsM t
  exact ⟨⟨h1, h2⟩, ⟨h3, h4⟩⟩

/-- Counterexample to claim C2 as stated: in the MNIST MLP loop the
loss-history appends sit *outside* the inner batch loop, so a trainer step
that is not the last of its epoch appends nothing.  At the concrete
environment `env0` and start state `stM0`, one inner trainer step leaves the
discriminator loss history unchanged instead of appending one value. -/
theorem claim_C2_counterexample :
    ¬ (mnistInnerStep env0 stM0).dLosses.length = stM0.dLosses.length + 1 := by
  intro h
  rw [mnistInnerStep_dLosses] at h
  omega

/-- Claim C2, amended: in the 1D loop every trainer step appends exactly one
loss value to each history, and both appended values are non-negative.  In
the MNIST MLP loop an inner trainer step appends nothing; instead each epoch
appends exactly one value to each history (the most recent batch's
discriminator and generator losses), and those values are non-negative. -/
theorem claim_C2_thm (u : UpdateRules) (s : Trainer1DState) (m : MnistEnv) (t : MnistState) :
    ((step1D u s).dLosses = s.dLosses ++ [dLoss1D s]
      ∧ (step1D u s).gLosses = s.gLosses ++ [gLoss1D (discSubStep1D u s)]
      ∧ 0 ≤ dLoss1D s ∧ 0 ≤ gLoss1D (discSubStep1D u s))
    ∧ ((mnistInnerStep m t).dLosses = t.dLosses
      ∧ (mnistInnerStep m t).gLosses = t.gLosses)
    ∧ (0 < batchCountOf m →
        ∃ dl gl, 0 ≤ dl ∧ 0 ≤ gl
          ∧ (mnistEpoch m t).dLosses = t.dLosses ++ [dl]
          ∧ (mnistEpoch m t).gLosses = t.gLosses ++ [gl]) := by
  refine ⟨⟨rfl, rfl, dLoss1D_nonneg s, gLoss1D_nonneg _⟩, ⟨rfl, rfl⟩, ?_⟩
  intro hB
  obtain ⟨k, hk⟩ : ∃ k, batchCountOf m = k + 1 := ⟨batchCountOf m - 1, by omega⟩
  refine ⟨((mnistInnerStep m)^[batchCountOf m] t).lastD,
    ((mnistInnerStep m)^[batchCountOf m] t).lastG, ?_, ?_,
    mnistEpoch_dLosses m t, mnistEpoch_gLosses m t⟩
  · rw [hk, Function.iterate_succ_apply']
    exact mnistInnerStep_lastD_nonneg m _
  · rw [hk, Function.iterate_succ_apply']
    exact mnistInnerStep_lastG_nonneg m _

set_option maxRecDepth 8000 in
/-- Witness for the amended C2 at the concrete environment `env0` (whose
training array holds one batch, so `batch_count = 1 > 0`) and state
`stM0`. -/
theorem claim_C2_witness :
    ∃ dl gl, 0 ≤ dl ∧ 0 ≤ gl
      ∧ (mnistEpoch env0 stM0).dLosses = stM0.dLosses ++ [dl]
      ∧ (mnistEpoch env0 stM0).gLosses = stM0.gLosses ++ [gl] :=
  (claim_C2_thm upd0 st1D0 env0 stM0).2.2 (by
    have h : batchCountOf env0 = 1 := by
      show (List.replicate 128 (List.replicate 784 (0 : ℝ))).length / batchSizeM = 1
      rw [List.length_replicate]
      rfl
    rw [h]
    norm_num)

/-- Claim C4: in every trainer step the discriminator training batch is the
real batch followed by the synthetic batch; the labels are assigned by the
trainer as fixed constants — label `1` for every real sample in the 1D loop,
the smoothed `0.9` in the MNIST MLP loop, label `0` for every synthetic
sample — all of which lie in `[0, 1]`; the label vectors `yDis1D` / `yDisM`
are closed constants, taken from no data source. -/
theorem claim_C4 (u : UpdateRules) (s : Trainer1DState) (m : MnistEnv) (t : MnistState) :
    (yDis1D = List.replicate nSamples 1 ++ List.replicate nSamples 0
      ∧ yDisM = List.replicate batchSizeM 0.9 ++ List.replicate batchSizeM 0
      ∧ (∀ y ∈ yDis1D, 0 ≤ y ∧ y ≤ 1) ∧ (∀ y ∈ yDisM, 0 ≤ y ∧ y ≤ 1))
    ∧ (xDis1D s = real1 s ++ fake1 s
      ∧ (real1 s).length = nSamples ∧ (fake1 s).length = nSamples
      ∧ (discSubStep1D u s).disc = u.dUpd s.disc (xDis1D s) yDis1D)
    ∧ (xDisM m t = realM m t ++ fakeM t
      ∧ (realM m t).length = batchSizeM ∧ (fakeM t).length = batchSizeM
      ∧ (mnistDiscSub m t).disc = m.dUpd t.disc (xDisM m t) yDisM) :=
  ⟨⟨yDis1D_eq, yDisM_eq, yDis1D_mem, yDisM_mem⟩,
   ⟨rfl, real1_length s, fake1_length s, rfl⟩,
   ⟨rfl, realM_length m t, fakeM_length t, rfl⟩⟩

/-- Witness for C4: the real-sample label values `1` and `0.9` at concrete
inputs lie in `[0, 1]`. -/
theorem claim_C4_witness :
    (0 ≤ (1 : ℝ) ∧ (1 : ℝ) ≤ 1) ∧ (0 ≤ (0.9 : ℝ) ∧ (0.9 : ℝ) ≤ 1) :=
  ⟨(claim_C4 upd0 st1D0 env0 stM0).1.2.2.1 1
      (by
        rw [yDis1D_eq]
        exact List.mem_append_left _
          (List.mem_replicate.2 ⟨by norm_num [nSamples], rfl⟩)),
   (claim_C4 upd0 st1D0 env0 stM0).1.2.2.2 0.9
      (by
        rw [yDisM_eq]
        exact List.mem_append_left _
          (List.mem_replicate.2 ⟨by norm_num [batchSizeM], rfl⟩))⟩

/-- Counterexample to claim C5 as stated: the import cell seeds only
Python's `random` module (`random.seed(0)`), while every draw of the
training loop uses numpy's global RNG, which the program never seeds.  Two
runs with the same seed `0` but different entropy-derived numpy initial
states (`rng0` versus `rng1`) produce different (real batch, latent batch)
draw sequences already at the first step. -/
theorem claim_C5_counterexample :
    runDrawSeq (programStart 0 rng0) 1 ≠ runDrawSeq (programStart 0 rng1) 1 := by
  intro h
  have hA : runDrawSeq (programStart 0 rng0) 1 = [(stepDrawPair rng0).1] := rfl
  have hB : runDrawSeq (programStart 0 rng1) 1 = [(stepDrawPair rng1).1] := rfl
  rw [hA, hB] at h
  have h2 : ((draw rng0 nSamples).1).headI = ((draw rng1 nSamples).1).headI :=
    congrArg (fun L => ((L.headI).2).headI) h
  rw [draw_headI, draw_headI] at h2
  simp only [rng0, rng1] at h2
  norm_num at h2

/-- Claim C5, amended: the seed passed to `random.seed` at program start
seeds only Python's `random` module and has no effect on the numpy draws;
the (real batch, latent batch) draw sequence is a deterministic function of
numpy's (never-seeded) initial state alone, so it is identical across runs
that share that state — regardless of the seed — but need not be identical
across runs that merely share the seed. -/
theorem claim_C5_thm (seedA seedB : ℕ) (np2 : Rng) (k : ℕ) :
    runDrawSeq (programStart seedA np2) k = runDrawSeq (programStart seedB np2) k
    ∧ (programStart seedA np2).py = pySeed seedA
    ∧ (programStart seedA np2).np = np2 :=
  ⟨rfl, rfl, rfl⟩

/-- Claim C7: the dataset loaders satisfy their contract.  The MNIST loader
returns, per split, exactly the pickled label vector paired with an images
array of fixed shape `(len(labels), 28, 28, 1)` (the LeNet notebook's
variant pads to `(len(labels), 32, 32, 1)`); when the pickled labels are
digits `0–9` — as in the MNIST file — so are the returned labels, since the
loader passes them through unchanged.  The PatchCamelyon loader returns the
unpickled image array as is, with no labels anywhere in its type. -/
theorem claim_C7 (f : MnistFile) (a : NDArray)
    (hTr : ∀ l ∈ f.trainLabels, 0 ≤ l ∧ l ≤ 9)
    (hVa : ∀ l ∈ f.validLabels, 0 ≤ l ∧ l ≤ 9)
    (hTe : ∀ l ∈ f.testLabels, 0 ≤ l ∧ l ≤ 9) :
    ((loadMNIST f).1.labels = f.trainLabels
      ∧ (loadMNIST f).2.1.labels = f.validLabels
      ∧ (loadMNIST f).2.2.labels = f.testLabels
      ∧ (loadMNIST f).1.images.shape = [(loadMNIST f).1.labels.length, 28, 28, 1]
      ∧ (loadMNIST f).2.1.images.shape = [(loadMNIST f).2.1.labels.length, 28, 28, 1]
      ∧ (loadMNIST f).2.2.images.shape = [(loadMNIST f).2.2.labels.length, 28, 28, 1]
      ∧ (∀ l ∈ (loadMNIST f).1.labels, 0 ≤ l ∧ l ≤ 9)
      ∧ (∀ l ∈ (loadMNIST f).2.1.labels, 0 ≤ l ∧ l ≤ 9)
      ∧ (∀ l ∈ (loadMNIST f).2.2.labels, 0 ≤ l ∧ l ≤ 9))
    ∧ ((loadMNISTLeNet f).1.labels = f.trainLabels
      ∧ (loadMNISTLeNet f).1.images.shape = [(loadMNISTLeNet f).1.labels.length, 32, 32, 1])
    ∧ loadPatchCamelyon a = a :=
  ⟨⟨rfl, rfl, rfl, rfl, rfl, rfl, hTr, hVa, hTe⟩, ⟨rfl, rfl⟩, rfl⟩

/-- A tiny concrete MNIST pickle content used to instantiate C7. -/
def mnistFile0 : MnistFile :=
  ⟨⟨[4], [1, 2, 3, 4]⟩, [5, 0], ⟨[1], [7]⟩, [9], ⟨[0], []⟩, [3]⟩

/-- Witness for C7 at the concrete file content `mnistFile0`. -/
theorem claim_C7_witness :
    (loadMNIST mnistFile0).1.labels = [5, 0]
      ∧ (loadMNIST mnistFile0).1.images.shape = [2, 28, 28, 1]
      ∧ (loadMNISTLeNet mnistFile0).1.images.shape = [2, 32, 32, 1]
      ∧ loadPatchCamelyon ⟨[2], [1, 2]⟩ = ⟨[2], [1, 2]⟩ :=
  ⟨(claim_C7 mnistFile0 ⟨[2], [1, 2]⟩ (by decide) (by decide) (by decide)).1.1,
   (claim_C7 mnistFile0 ⟨[2], [1, 2]⟩ (by decide) (by decide) (by decide)).1.2.2.2.1,
   (claim_C7 mnistFile0 ⟨[2], [1, 2]⟩ (by decide) (by decide) (by decide)).2.1.2,
   (claim_C7 mnistFile0 ⟨[2], [1, 2]⟩ (by decide) (by decide) (by decide)).2.2⟩

/-- Counterexample to claim C9 as stated: the claim quantifies over *every*
pair of latent vectors and asserts `noise_a` is never among the produced
points; but when `noise_a = noise_b` (here the zero vector) the first
produced point *is* `noise_a`. -/
theorem claim_C9_counterexample :
    (interpRows (List.replicate 10 0) (List.replicate 10 0)).getD 0 [] =
      List.replicate 10 0 := by
  rw [interpRows_getD _ _ 0 (by norm_num)]
  exact interpPoint_zero _ _ rfl

/-- Claim C9, amended: for every pair of latent row vectors (length 10, as
drawn in the source) the interpolation loop produces exactly the ten points
`(ni/10)·noise_a + (1 − ni/10)·noise_b` for `ni = 0, …, 9`; the first
produced point equals `noise_b` exactly; and *whenever `noise_a ≠ noise_b`*,
`noise_a` itself is never among the produced points (the largest coefficient
reached is `9/10`, so the closest point is `0.9·noise_a + 0.1·noise_b`). -/
theorem claim_C9_thm (a b : Vec) (ha : a.length = 10) (hb : b.length = 10) :
    (∀ ni : ℕ, ni < 10 → (interpRows a b).getD ni [] = interpPoint a b ni)
    ∧ (interpRows a b).getD 0 [] = b
    ∧ (a ≠ b → ∀ ni : ℕ, ni < 10 → (interpRows a b).getD ni [] ≠ a) := by
  have hlen : a.length = b.length := by
    rw [ha, hb]
  refine ⟨fun ni h => interpRows_getD a b ni h, ?_, ?_⟩
  · rw [interpRows_getD a b 0 (by norm_num)]
    exact interpPoint_zero a b hlen
  · intro hne ni h
    rw [interpRows_getD a b ni h]
    intro heq
    exact hne (interpPoint_eq_imp ni h a b hlen heq).symm

/-- Witness for the amended C9 at two concrete distinct latent vectors. -/
theorem claim_C9_witness :
    (interpRows ((1 : ℝ) :: List.replicate 9 0) (List.replicate 10 0)).getD 0 [] =
        List.replicate 10 0
    ∧ (interpRows ((1 : ℝ) :: List.replicate 9 0) (List.replicate 10 0)).getD 9 [] ≠
        (1 : ℝ) :: List.replicate 9 0 :=
  ⟨(claim_C9_thm ((1 : ℝ) :: List.replicate 9 0) (List.replicate 10 0)
      (by simp) (by simp)).2.1,
   (claim_C9_thm ((1 : ℝ) :: List.replicate 9 0) (List.replicate 10 0)
      (by simp) (by simp)).2.2
      (by
        intro hEq
        have h2 : (1 : ℝ) = 0 := congrArg List.headI hEq
        norm_num at h2)
      9 (by norm_num)⟩

/-- Claim C10: for every vector of integer labels in `0–9`, the one-hot
encoding loop of the classifier notebook produces, for each label, a row of
length 10 with a single `1` at the column index equal to that label and `0`
everywhere else, so each row sums to `1`. -/
theorem claim_C10 (labels : List ℤ) (hl : ∀ l ∈ labels, 0 ≤ l ∧ l ≤ 9)
    (i : ℕ) (hi : i < labels.length) :
    ((oneHot labels).getD i []).length = 10
    ∧ ((oneHot labels).getD i []).getD (labels.getD i 0).toNat 0 = 1
    ∧ (∀ j : ℕ, j < 10 → (j : ℤ) ≠ labels.getD i 0 →
        ((oneHot labels).getD i []).getD j 0 = 0)
    ∧ ((oneHot labels).getD i []).sum = 1 := by
  have hrow : (oneHot labels).getD i [] = oneHotRow (labels.getD i 0) := by
    rw [oneHot_eq_map]
    exact getD_map_lt oneHotRow 0 [] labels i hi
  have hmem : labels.getD i 0 ∈ labels := by
    rw [List.getD_eq_getElem labels 0 hi]
    exact List.getElem_mem hi
  have hb := hl _ hmem
  rw [hrow]
  exact oneHotRow_spec _ hb.1 hb.2

/-- Witness for C10 at the concrete label vector `[3, 0, 9]`, row 1
(label 0). -/
theorem claim_C10_witness :
    ((oneHot [3, 0, 9]).getD 1 []).length = 10
    ∧ ((oneHot [3, 0, 9]).getD 1 []).getD 0 0 = 1
    ∧ ((oneHot [3, 0, 9]).getD 1 []).sum = 1 :=
  ⟨(claim_C10 [3, 0, 9] (by decide) 1 (by decide)).1,
   (claim_C10 [3, 0, 9] (by decide) 1 (by decide)).2.1,
   (claim_C10 [3, 0, 9] (by decide) 1 (by decide)).2.2.2⟩

end GanPractical
